import Mathlib

/-!
Verification of the Tell_My_Story book exporter.

The exporter lives in biography_publisher.py (generate_docx, generate_html,
generate_zip) and biographer.py (generate_pdf and the export-tab story
assembly).  Stateful library objects (python-docx Document, FPDF, zipfile)
are embedded as the ordered list of elements/operations/entries produced by
the straight-line library calls; pure string building is embedded as string
functions.  The current year read by datetime.now is an explicit parameter.
-/

namespace TellMyStory

/-- The whitespace characters removed by Python str.strip with no argument
(restricted to the ASCII range, which is all the sources use). -/
def isPySpace (c : Char) : Bool :=
  c = ' ' || c = '\t' || c = '\n' || c = '\r' || c = '\x0b' || c = '\x0c'

/-- Embedding of Python str.strip with no argument. -/
def pyStrip (l : List Char) : List Char :=
  ((l.dropWhile isPySpace).reverse.dropWhile isPySpace).reverse

/-- Embedding of Python str.split on a single newline character. -/
def splitNl : List Char → List (List Char)
  | [] => [[]]
  | c :: rest =>
    match splitNl rest with
    | [] => [[]]
    | cur :: acc => if c = '\n' then [] :: cur :: acc else (c :: cur) :: acc

/-- Embedding of Python str.replace where the pattern is a single character. -/
def replaceChar (c : Char) (rep : List Char) (l : List Char) : List Char :=
  l.flatMap (fun x => if x = c then rep else [x])

/-- Embedding of Python str.replace of a single character by the empty string. -/
def removeChar (c : Char) (l : List Char) : List Char :=
  l.filter (fun x => x ≠ c)

/-- The escaping chain used by generate_html on answer paragraphs and image
captions: replace ampersand by its entity, then the two angle brackets,
in that order (biography_publisher.py lines 512 and 521). -/
def escapeChars (l : List Char) : List Char :=
  replaceChar '>' ("&gt;".data)
    (replaceChar '<' ("&lt;".data)
      (replaceChar '&' ("&amp;".data) l))

/-- String-level wrapper of escapeChars. -/
def pyEscape (s : String) : String := String.mk (escapeChars s.data)

/-- Helper of the tag stripper: split a character list at the first
greater-than sign, returning the (sign-free) part before it and the part
after it. -/
def splitAtGt : List Char → Option (List Char × List Char)
  | [] => none
  | c :: r =>
    if c = '>' then some ([], r)
    else (splitAtGt r).map (fun p => (c :: p.1, p.2))

theorem splitAtGt_length :
    ∀ (l b r : List Char), splitAtGt l = some (b, r) → r.length < l.length := by
  intro l
  induction l with
  | nil => intro b r h; simp [splitAtGt] at h
  | cons c cs ih =>
    intro b r h
    by_cases hc : c = '>'
    · rw [splitAtGt, if_pos hc] at h
      injection h with h
      injection h with h1 h2
      subst h2
      simp [List.length_cons]
    · rw [splitAtGt, if_neg hc] at h
      cases hsp : splitAtGt cs with
      | none => rw [hsp] at h; simp at h
      | some p =>
        rw [hsp] at h
        simp only [Option.map_some'] at h
        injection h with h
        injection h with h1 h2
        subst h2
        have := ih p.1 p.2 (by rw [hsp])
        simp [List.length_cons]
        omega

theorem splitAtGt_none :
    ∀ (l : List Char), splitAtGt l = none ↔ '>' ∉ l := by
  intro l
  induction l with
  | nil => simp [splitAtGt]
  | cons c cs ih =>
    by_cases hc : c = '>'
    · subst hc; simp [splitAtGt]
    · rw [splitAtGt, if_neg hc]
      cases hsp : splitAtGt cs with
      | none =>
        simp only [Option.map_none', true_iff]
        have : '>' ∉ cs := (ih).mp hsp
        simp [this]
        exact fun he => hc he.symm
      | some p =>
        simp only [Option.map_some']
        constructor
        · intro h; simp at h
        · intro h
          exfalso
          have : ¬ splitAtGt cs = none := by simp [hsp]
          have hmem : '>' ∉ cs := by
            intro hm
            exact h (List.mem_cons_of_mem _ hm)
          exact this (ih.mpr hmem)

theorem splitAtGt_some_shape :
    ∀ (l b r : List Char), splitAtGt l = some (b, r) →
      l = b ++ '>' :: r ∧ '>' ∉ b := by
  intro l
  induction l with
  | nil => intro b r h; simp [splitAtGt] at h
  | cons c cs ih =>
    intro b r h
    by_cases hc : c = '>'
    · rw [splitAtGt, if_pos hc] at h
      injection h with h
      injection h with h1 h2
      subst hc h2
      simp [← h1]
    · rw [splitAtGt, if_neg hc] at h
      cases hsp : splitAtGt cs with
      | none => rw [hsp] at h; simp at h
      | some p =>
        rw [hsp] at h
        simp only [Option.map_some'] at h
        injection h with h
        injection h with h1 h2
        subst h2
        obtain ⟨hshape, hmem⟩ := ih p.1 p.2 (by rw [hsp])
        subst h1
        constructor
        · simp [hshape]
        · simp [hmem]
          exact fun he => hc he.symm

/-- Embedding of the Python call re.sub with pattern <[^>]+> and empty
replacement, as used to clean answer markup at biography_publisher.py:189
and biographer.py:1986.  The regex scan is leftmost: at each less-than sign
the matcher looks for the first later greater-than sign; the match succeeds
exactly when there is at least one character strictly between them, and the
scan then resumes after the match.  On failure the scan keeps the character
and moves one position right. -/
def stripTags (l : List Char) : List Char :=
  match l with
  | [] => []
  | c :: rest =>
    if c = '<' then
      match h : splitAtGt rest with
      | some (b, after) =>
        if b = [] then c :: stripTags rest
        else stripTags after
      | none => c :: stripTags rest
    else c :: stripTags rest
termination_by l.length
decreasing_by
  · simp [List.length_cons]
  · have h2 := splitAtGt_length rest b after h
    simp only [List.length_cons]
    omega
  · simp [List.length_cons]
  · simp [List.length_cons]

/-- The shared text-cleaning step applied to answer markup before export
(spec section 4.1; the source applies it inline). -/
def clean_text (s : String) : String := String.mk (stripTags s.data)

theorem stripTags_nil : stripTags [] = [] := by
  rw [stripTags.eq_def]

theorem stripTags_cons_ne (c : Char) (rest : List Char) (h : c ≠ '<') :
    stripTags (c :: rest) = c :: stripTags rest := by
  rw [stripTags.eq_def]
  simp only []
  rw [if_neg h]

theorem stripTags_lt_none (rest : List Char) (h : splitAtGt rest = none) :
    stripTags ('<' :: rest) = '<' :: stripTags rest := by
  rw [stripTags.eq_def]
  simp only []
  simp only [if_true]
  split
  · rename_i b after heq
    rw [h] at heq
    exact absurd heq (by simp)
  · rfl

theorem stripTags_lt_empty (rest r : List Char) (h : splitAtGt rest = some ([], r)) :
    stripTags ('<' :: rest) = '<' :: stripTags rest := by
  rw [stripTags.eq_def]
  simp only []
  simp only [if_true]
  split
  · rename_i b after heq
    rw [h] at heq
    injection heq with heq
    injection heq with h1 h2
    rw [if_pos h1.symm]
  · rfl

theorem stripTags_lt_match (rest b r : List Char) (h : splitAtGt rest = some (b, r))
    (hb : b ≠ []) : stripTags ('<' :: rest) = stripTags r := by
  rw [stripTags.eq_def]
  simp only []
  simp only [if_true]
  split
  · rename_i b' after heq
    rw [h] at heq
    injection heq with heq
    injection heq with h1 h2
    subst h2
    rw [if_neg (h1 ▸ hb)]
  · rename_i heq
    rw [h] at heq
    exact absurd heq (by simp)

theorem stripTags_sublist : ∀ l, List.Sublist (stripTags l) l := by
  intro l
  induction l using stripTags.induct with
  | case1 => simp [stripTags_nil]
  | case2 a b hsp ih =>
    rw [stripTags_lt_empty a b hsp]
    exact ih.cons₂ '<'
  | case3 a b c hsp hb ih =>
    rw [stripTags_lt_match a b c hsp hb]
    have hshape := (splitAtGt_some_shape a b c hsp).1
    have hsub : List.Sublist c a := by
      rw [hshape]
      exact (List.sublist_cons_self '>' c).trans (List.sublist_append_right b ('>' :: c))
    exact (ih.trans hsub).cons '<'
  | case4 a hsp ih =>
    rw [stripTags_lt_none a hsp]
    exact ih.cons₂ '<'
  | case5 a b hne ih =>
    rw [stripTags_cons_ne a b hne]
    exact ih.cons₂ a

theorem stripTags_of_no_gt : ∀ l, '>' ∉ l → stripTags l = l := by
  intro l
  induction l using stripTags.induct with
  | case1 => intro _; exact stripTags_nil
  | case2 a b hsp ih =>
    intro hmem
    exfalso
    have hshape := (splitAtGt_some_shape a [] b hsp).1
    exact hmem (List.mem_cons_of_mem _ (by rw [hshape]; exact List.mem_cons_self _ _))
  | case3 a b c hsp hb ih =>
    intro hmem
    exfalso
    have hshape := (splitAtGt_some_shape a b c hsp).1
    exact hmem (List.mem_cons_of_mem _ (by rw [hshape]; exact List.mem_append_right b (List.mem_cons_self _ _)))
  | case4 a hsp ih =>
    intro hmem
    rw [stripTags_lt_none a hsp]
    rw [ih (fun hm => hmem (List.mem_cons_of_mem _ hm))]
  | case5 a b hne ih =>
    intro hmem
    rw [stripTags_cons_ne a b hne]
    rw [ih (fun hm => hmem (List.mem_cons_of_mem _ hm))]

theorem stripTags_no_gt (l : List Char) (h : '>' ∉ l) : '>' ∉ stripTags l :=
  fun hm => h ((stripTags_sublist l).subset hm)

/-- Invariant satisfied by the output of the tag stripper: every occurrence
of a less-than sign is either immediately followed by a greater-than sign or
has no greater-than sign anywhere after it, so no further tag match exists. -/
def inert : List Char → Bool
  | [] => true
  | c :: rest =>
    if c = '<' then
      match rest with
      | [] => true
      | d :: _ => if d = '>' then inert rest else decide ('>' ∉ rest)
    else inert rest

theorem inert_cons_ne (c : Char) (rest : List Char) (h : c ≠ '<') :
    inert (c :: rest) = inert rest := by
  simp [inert, h]

theorem inert_lt_cons (e : Char) (t : List Char) (he : e ≠ '>') :
    inert ('<' :: e :: t) = decide ('>' ∉ e :: t) := by
  simp [inert, he]

theorem inert_lt_of_no_gt (t : List Char) (h : '>' ∉ t) : inert ('<' :: t) = true := by
  cases t with
  | nil => simp [inert]
  | cons d t' =>
    have hd : d ≠ '>' := fun he => h (he ▸ List.mem_cons_self d t')
    simp [inert, hd, h]

theorem inert_of_no_gt : ∀ l, '>' ∉ l → inert l = true := by
  intro l
  induction l with
  | nil => simp [inert]
  | cons c rest ih =>
    intro h
    by_cases hc : c = '<'
    · subst hc
      exact inert_lt_of_no_gt rest (fun hm => h (List.mem_cons_of_mem _ hm))
    · rw [inert_cons_ne c rest hc]
      exact ih (fun hm => h (List.mem_cons_of_mem _ hm))

theorem stripTags_of_inert : ∀ l, inert l = true → stripTags l = l := by
  intro l
  induction l using stripTags.induct with
  | case1 => intro _; exact stripTags_nil
  | case2 a b hsp ih =>
    intro hin
    have hshape := (splitAtGt_some_shape a [] b hsp).1
    simp only [List.nil_append] at hshape
    rw [stripTags_lt_empty a b hsp]
    have hin' : inert a = true := by
      rw [hshape] at hin ⊢
      simpa [inert] using hin
    rw [ih hin']
  | case3 a b c hsp hb ih =>
    intro hin
    exfalso
    obtain ⟨hshape, hnb⟩ := splitAtGt_some_shape a b c hsp
    obtain ⟨e, b', hb'⟩ := List.exists_cons_of_ne_nil hb
    have he : e ≠ '>' := fun heq => hnb (by rw [hb', heq]; exact List.mem_cons_self _ _)
    have ha : a = e :: (b' ++ '>' :: c) := by rw [hshape, hb']; simp
    rw [ha, inert_lt_cons e _ he] at hin
    have hin' : '>' ∉ e :: (b' ++ '>' :: c) := of_decide_eq_true hin
    exact hin' (List.mem_cons_of_mem e (List.mem_append_right b' (List.mem_cons_self _ _)))
  | case4 a hsp ih =>
    intro hin
    have hna : '>' ∉ a := (splitAtGt_none a).mp hsp
    rw [stripTags_lt_none a hsp, ih (inert_of_no_gt a hna)]
  | case5 a b hne ih =>
    intro hin
    rw [stripTags_cons_ne a b hne]
    rw [ih (by rwa [inert_cons_ne a b hne] at hin)]

theorem inert_stripTags : ∀ l, inert (stripTags l) = true := by
  intro l
  induction l using stripTags.induct with
  | case1 => simp [stripTags_nil, inert]
  | case2 a b hsp ih =>
    have hshape := (splitAtGt_some_shape a [] b hsp).1
    simp only [List.nil_append] at hshape
    rw [stripTags_lt_empty a b hsp, hshape, stripTags_cons_ne '>' b (by decide)]
    simp only [inert, if_pos rfl, if_true]
    rw [hshape, stripTags_cons_ne '>' b (by decide)] at ih
    simpa [inert] using ih
  | case3 a b c hsp hb ih =>
    rw [stripTags_lt_match a b c hsp hb]
    exact ih
  | case4 a hsp ih =>
    have hna : '>' ∉ a := (splitAtGt_none a).mp hsp
    rw [stripTags_lt_none a hsp]
    exact inert_lt_of_no_gt (stripTags a) (stripTags_no_gt a hna)
  | case5 a b hne ih =>
    rw [stripTags_cons_ne a b hne, inert_cons_ne a (stripTags b) hne]
    exact ih

theorem stripTags_idem (l : List Char) : stripTags (stripTags l) = stripTags l :=
  stripTags_of_inert (stripTags l) (inert_stripTags l)

/-- Value of a character in the standard base64 alphabet. -/
def b64val (c : Char) : Option Nat :=
  if 'A' ≤ c ∧ c ≤ 'Z' then some (c.toNat - 65)
  else if 'a' ≤ c ∧ c ≤ 'z' then some (c.toNat - 97 + 26)
  else if '0' ≤ c ∧ c ≤ '9' then some (c.toNat - 48 + 52)
  else if c = '+' then some 62
  else if c = '/' then some 63
  else none

def isB64Char (c : Char) : Bool := (b64val c).isSome

/-- Decode a list of base64 characters (alphabet characters and padding
only), four at a time.  Padding is accepted only at the end. -/
def b64decodeGroups : List Char → Option (List Nat)
  | [] => some []
  | a :: b :: c :: d :: rest =>
    match b64val a, b64val b with
    | some va, some vb =>
      match b64val c with
      | some vc =>
        match b64val d with
        | some vd =>
          (b64decodeGroups rest).map (fun bs =>
            let n := ((va * 64 + vb) * 64 + vc) * 64 + vd
            n / 65536 :: n / 256 % 256 :: n % 256 :: bs)
        | none =>
          if d = '=' ∧ rest = [] then
            let m := (va * 64 + vb) * 64 + vc
            some [m / 1024, m / 4 % 256]
          else none
      | none =>
        if c = '=' ∧ d = '=' ∧ rest = [] then
          some [(va * 64 + vb) / 16]
        else none
    | _, _ => none
  | _ => none

/-- Embedding of Python base64.b64decode with default arguments: characters
outside the alphabet are discarded before decoding, then the remaining
length must be a multiple of four; failure is returned as none where the
Python call raises binascii.Error. -/
def b64decode (s : String) : Option (List Nat) :=
  b64decodeGroups (s.data.filter (fun c => isB64Char c || c = '='))

/-- Character of a six-bit value in the standard base64 alphabet. -/
def b64chr (n : Nat) : Char :=
  if n < 26 then Char.ofNat (65 + n)
  else if n < 52 then Char.ofNat (97 + (n - 26))
  else if n < 62 then Char.ofNat (48 + (n - 52))
  else if n = 62 then '+'
  else '/'

/-- Encode a list of bytes in base64, three at a time. -/
def b64encodeGroups : List Nat → List Char
  | [] => []
  | [a] =>
    let n := a % 256 * 16
    [b64chr (n / 64 % 64), b64chr (n % 64), '=', '=']
  | [a, b] =>
    let n := (a % 256 * 256 + b % 256) * 4
    [b64chr (n / 4096 % 64), b64chr (n / 64 % 64), b64chr (n % 64), '=']
  | a :: b :: c :: rest =>
    let n := (a % 256 * 256 + b % 256) * 256 + c % 256
    b64chr (n / 262144 % 64) :: b64chr (n / 4096 % 64) :: b64chr (n / 64 % 64) ::
      b64chr (n % 64) :: b64encodeGroups rest

/-- Embedding of Python base64.b64encode followed by decode to text. -/
def b64encode (bs : List Nat) : String := String.mk (b64encodeGroups bs)

/-- Whether the second list occurs as a leading segment of the first. -/
def leadSeg : List Char → List Char → Bool
  | _, [] => true
  | [], _ :: _ => false
  | a :: as, b :: bs => a = b && leadSeg as bs

/-- Whether the pattern occurs as a contiguous run anywhere in the list. -/
def containsRun (l pat : List Char) : Bool :=
  match l with
  | [] => leadSeg [] pat
  | _ :: rest => leadSeg l pat || containsRun rest pat

/-- Whether the pattern string occurs as a contiguous substring. -/
def containsSub (s pat : String) : Bool := containsRun s.data pat.data

/-- One attached image of a story record: the base64 text of its bytes and
its caption, as assembled by the export tab (biographer.py:1973-1982). -/
structure Image where
  base64 : String
  caption : String
deriving DecidableEq

/-- One story record: an answered prompt with its session grouping and
attached images (spec section 3; biographer.py:1984-1989). -/
structure Story where
  question : String
  answer_text : String
  session_title : String
  images : List Image
deriving DecidableEq

/-- Default story record used only to give list indexing a default. -/
def story0 : Story := ⟨"", "", "", []⟩

end TellMyStory

namespace BiographyPublisher

open TellMyStory

/-- One formatted text run inside a python-docx paragraph. -/
structure DocxRun where
  text : String
  bold : Bool
  italic : Bool
  size : Option Nat
deriving DecidableEq

/-- One block-level element added to the python-docx Document by
generate_docx (biography_publisher.py:221-334).  Library-side image format
validation is not modelled: a picture block records the decoded bytes
passed to add_picture. -/
inductive DocxBlock where
  | paragraph (runs : List DocxRun) (centered : Bool) (style : Option String)
  | heading (level : Nat) (text : String)
  | picture (data : List Nat) (widthInches : Nat) (centered : Bool)
  | pageBreak
deriving DecidableEq

/-- The distinct session titles in first-seen order, as produced by the
insertion-ordered sessions dict of the TOC loops
(biography_publisher.py:276-283 and 477-484). -/
def firstSeenTitles (ss : List Story) : List String :=
  ss.foldl (fun acc s => if acc.contains s.session_title then acc else acc ++ [s.session_title]) []

/-- Cover-page blocks of generate_docx (lines 236-244): picture scaled to
five inches, centered, followed by an empty paragraph. -/
def docxCoverBlocks (cov : Option (List Nat)) : List DocxBlock :=
  match cov with
  | some bs => [DocxBlock.picture bs 5 true, DocxBlock.paragraph [] false none]
  | none => []

/-- Title paragraph of generate_docx (lines 247-251). -/
def docxTitlePara (title : String) : DocxBlock :=
  DocxBlock.paragraph [⟨title, true, false, some 28⟩] true none

/-- Author paragraph of generate_docx (lines 254-258). -/
def docxAuthorPara (author : String) : DocxBlock :=
  DocxBlock.paragraph [⟨"by " ++ author, false, true, some 16⟩] true none

/-- Copyright paragraph of generate_docx (lines 263-265); the copyright
mark is the two characters the source file holds at that position. -/
def docxCopyrightPara (year : Nat) (author : String) : DocxBlock :=
  DocxBlock.paragraph
    [⟨"¬© " ++ toString year ++ " " ++ author ++ ". All rights reserved.", false, false, none⟩]
    true none

/-- Table-of-contents blocks of generate_docx (lines 269-286): a bold
title paragraph, one flat bullet per distinct session title in first-seen
order, then a page break. -/
def docxTocBlocks (toc : Bool) (ss : List Story) : List DocxBlock :=
  if toc then
    DocxBlock.paragraph [⟨"Table of Contents", true, false, some 18⟩] false none
      :: (firstSeenTitles ss).map
          (fun t => DocxBlock.paragraph [⟨"  " ++ t, false, false, none⟩] false (some "List Bullet"))
      ++ [DocxBlock.pageBreak]
  else []

/-- Question paragraph of generate_docx (lines 297-301): emitted only for
the interview format style, as a bold italic run. -/
def docxQuestionBlocks (fmt : String) (q : String) : List DocxBlock :=
  if fmt = "interview" then [DocxBlock.paragraph [⟨q, true, true, none⟩] false none] else []

/-- Answer paragraphs of generate_docx (lines 304-309): the answer text is
split on newlines and each stripped nonempty line becomes one plain
paragraph. -/
def docxAnswerParas (ans : String) : List DocxBlock :=
  if ans ≠ "" then
    (splitNl ans.data).filterMap (fun p =>
      if pyStrip p ≠ [] then
        some (DocxBlock.paragraph [⟨String.mk (pyStrip p), false, false, none⟩] false none)
      else none)
  else []

/-- Image blocks of generate_docx (lines 312-326): each image with a
nonempty base64 field is decoded inside try/except; on success a centered
four-inch picture is added, followed by a centered caption paragraph when
the caption is nonempty; on decode failure the image is skipped. -/
def docxImageBlocks (imgs : List Image) : List DocxBlock :=
  imgs.flatMap (fun img =>
    if img.base64 ≠ "" then
      match b64decode img.base64 with
      | some d =>
        DocxBlock.picture d 4 true
          :: (if img.caption ≠ "" then
                [DocxBlock.paragraph [⟨img.caption, false, false, none⟩] true none]
              else [])
      | none => []
    else [])

/-- The blocks emitted for one story record by the loop of generate_docx
(lines 289-328), given whether the session heading fires. -/
def docxChunk (fmt : String) (incImg : Bool) (emit : Bool) (s : Story) : List DocxBlock :=
  (if emit then [DocxBlock.heading 1 s.session_title] else [])
  ++ docxQuestionBlocks fmt s.question
  ++ docxAnswerParas s.answer_text
  ++ (if incImg && !s.images.isEmpty then docxImageBlocks s.images else [])
  ++ [DocxBlock.paragraph [] false none]

/-- The story loop of generate_docx (lines 289-328): current_session starts
as None and a heading fires whenever the title differs from it; after each
record current_session equals that record's title. -/
def docxChunks (fmt : String) (incImg : Bool) : Option String → List Story → List (List DocxBlock)
  | _, [] => []
  | cur, s :: rest =>
    docxChunk fmt incImg (decide (some s.session_title ≠ cur)) s
      :: docxChunks fmt incImg (some s.session_title) rest

/-- Embedding of generate_docx (biography_publisher.py:221-334) as the
list of blocks added to the Document, in order.  The default-font setup
touches no blocks and the final save serializes them; both are outside the
model.  The year parameter stands for datetime.now().year. -/
def generate_docx (year : Nat) (title author : String) (ss : List Story)
    (fmt : String) (toc incImg : Bool) (cov : Option (List Nat)) : List DocxBlock :=
  docxCoverBlocks cov
  ++ [docxTitlePara title, docxAuthorPara author, DocxBlock.pageBreak,
      docxCopyrightPara year author, DocxBlock.pageBreak]
  ++ docxTocBlocks toc ss
  ++ (docxChunks fmt incImg none ss).join

end BiographyPublisher

namespace BiographyPublisher

open TellMyStory

/-- The anchor slug of a session title in generate_html (lines 485 and
497): lower-case the title, replace spaces with hyphens and delete
question marks, exclamation marks and commas.  Char.toLower matches the
Python lower() on the ASCII range. -/
def anchorOf (t : String) : String :=
  String.mk (removeChar ',' (removeChar '!' (removeChar '?'
    (replaceChar ' ' ['-'] (t.data.map Char.toLower)))))

/-- One string appended to the html accumulator by generate_html
(biography_publisher.py:343-530), tagged by its emission site. -/
inductive HtmlPiece where
  | head (year : Nat) (title author : String) (cover : Option (List Nat))
  | tocOpen
  | tocItem (anchor title : String)
  | tocClose
  | h2 (anchor title : String)
  | questionDiv (q : String)
  | answerP (text : String)
  | image (b64 : String)
  | caption (text : String)
  | hrPiece
  | tail
deriving DecidableEq

/-- The escaped answer paragraphs of generate_html (lines 507-513): split
the answer on newlines; each stripped nonempty line is escaped and emitted
as one paragraph. -/
def escapedParas (ans : String) : List String :=
  if ans ≠ "" then
    (splitNl ans.data).filterMap (fun p =>
      if pyStrip p ≠ [] then some (pyEscape (String.mk (pyStrip p))) else none)
  else []

/-- The image pieces of generate_html (lines 516-522): each image with a
nonempty base64 field is embedded as a data URI, followed by its escaped
caption when the caption is nonempty. -/
def htmlImagePieces (imgs : List Image) : List HtmlPiece :=
  imgs.flatMap (fun img =>
    if img.base64 ≠ "" then
      HtmlPiece.image img.base64
        :: (if img.caption ≠ "" then [HtmlPiece.caption (pyEscape img.caption)] else [])
    else [])

/-- The pieces emitted for one story record by the loop of generate_html
(lines 494-524), given whether the session heading fires. -/
def htmlChunk (fmt : String) (incImg : Bool) (emit : Bool) (s : Story) : List HtmlPiece :=
  (if emit then [HtmlPiece.h2 (anchorOf s.session_title) s.session_title] else [])
  ++ (if fmt = "interview" then [HtmlPiece.questionDiv s.question] else [])
  ++ (escapedParas s.answer_text).map HtmlPiece.answerP
  ++ (if incImg && !s.images.isEmpty then htmlImagePieces s.images else [])
  ++ [HtmlPiece.hrPiece]

/-- The story loop of generate_html (lines 494-524): current_session
starts as None and the h2 heading fires whenever the title differs from
it. -/
def htmlChunks (fmt : String) (incImg : Bool) : Option String → List Story → List (List HtmlPiece)
  | _, [] => []
  | cur, s :: rest =>
    htmlChunk fmt incImg (decide (some s.session_title ≠ cur)) s
      :: htmlChunks fmt incImg (some s.session_title) rest

/-- The table-of-contents pieces of generate_html (lines 470-491): opening
block, one anchor-linked item per distinct session title in first-seen
order, closing block. -/
def htmlTocPieces (toc : Bool) (ss : List Story) : List HtmlPiece :=
  if toc then
    HtmlPiece.tocOpen
      :: (firstSeenTitles ss).map (fun t => HtmlPiece.tocItem (anchorOf t) t)
      ++ [HtmlPiece.tocClose]
  else []

/-- The ordered emission sites of generate_html: the head f-string, the
optional table of contents, the per-story pieces, the closing tail. -/
def htmlPieces (year : Nat) (title author : String) (ss : List Story)
    (fmt : String) (toc incImg : Bool) (cov : Option (List Nat)) : List HtmlPiece :=
  HtmlPiece.head year title author cov
    :: htmlTocPieces toc ss
    ++ (htmlChunks fmt incImg none ss).join
    ++ [HtmlPiece.tail]

/-- The cover image markup of generate_html (lines 347-353): empty when no
cover image is given, otherwise an inline base64 data URI. -/
def coverHtml (cov : Option (List Nat)) : String :=
  match cov with
  | none => ""
  | some bs =>
    "<img src=\"data:image/jpeg;base64," ++ b64encode bs
      ++ "\" style=\"max-width:100%; max-height:70vh; margin:20px auto; display:block; border-radius:10px; box-shadow:0 10px 30px rgba(0,0,0,0.2);\">"

/-- The head f-string of generate_html (lines 356-468), transcribed
byte-for-byte from the source with literal braces and apostrophes written
as hexadecimal escapes. -/
def headHtml (year : Nat) (title author : String) (cov : Option (List Nat)) : String :=
  "<!DOCTYPE html>\n<html>\n<head>\n    <meta charset=\"UTF-8\">\n    <title>"
  ++ title
  ++ "</title>\n    <style>\n        body \x7b\n            font-family: \x27Georgia\x27, serif;\n            line-height: 1.6;\n            color: #333;\n            max-width: 800px;\n            margin: 0 auto;\n            padding: 40px 20px;\n            background: #fff;\n        \x7d\n        h1 \x7b\n            font-size: 42px;\n            text-align: center;\n            margin-bottom: 10px;\n            color: #000;\n        \x7d\n        h2 \x7b\n            font-size: 28px;\n            margin-top: 40px;\n            margin-bottom: 20px;\n            color: #444;\n            border-bottom: 2px solid #eee;\n            padding-bottom: 10px;\n        \x7d\n        .author \x7b\n            text-align: center;\n            font-size: 18px;\n            color: #666;\n            margin-bottom: 40px;\n            font-style: italic;\n        \x7d\n        .question \x7b\n            font-weight: bold;\n            font-size: 18px;\n            margin-top: 30px;\n            margin-bottom: 10px;\n            color: #2c3e50;\n            border-left: 4px solid #3498db;\n            padding-left: 15px;\n        \x7d\n        .story-image \x7b\n            max-width: 100%;\n            height: auto;\n            display: block;\n            margin: 20px auto;\n            border-radius: 5px;\n            box-shadow: 0 2px 10px rgba(0,0,0,0.1);\n        \x7d\n        .image-caption \x7b\n            text-align: center;\n            font-size: 14px;\n            color: #666;\n            margin-top: -10px;\n            margin-bottom: 20px;\n            font-style: italic;\n        \x7d\n        .cover-page \x7b\n            text-align: center;\n            margin-bottom: 50px;\n            page-break-after: always;\n        \x7d\n        .copyright \x7b\n            text-align: center;\n            font-size: 12px;\n            color: #999;\n            margin-top: 50px;\n            padding-top: 20px;\n            border-top: 1px solid #eee;\n        \x7d\n        .toc \x7b\n            background: #f9f9f9;\n            padding: 20px;\n            border-radius: 5px;\n            margin: 30px 0;\n        \x7d\n        .toc ul \x7b\n            list-style-type: none;\n            padding-left: 0;\n        \x7d\n        .toc li \x7b\n            margin-bottom: 10px;\n        \x7d\n        .toc a \x7b\n            color: #3498db;\n            text-decoration: none;\n        \x7d\n        .toc a:hover \x7b\n            text-decoration: underline;\n        \x7d\n        @media print \x7b\n            body \x7b\n                padding: 0.5in;\n            \x7d\n            .cover-page \x7b\n                page-break-after: always;\n            \x7d\n        \x7d\n    </style>\n</head>\n<body>\n    <div class=\"cover-page\">\n        "
  ++ coverHtml cov
  ++ "\n        <h1>"
  ++ title
  ++ "</h1>\n        <p class=\"author\">by "
  ++ author
  ++ "</p>\n    </div>\n    \n    <p class=\"copyright\">¬© "
  ++ toString year
  ++ " "
  ++ author
  ++ ". All rights reserved.</p>\n"

/-- The exact string each piece appends to the html accumulator. -/
def renderPiece : HtmlPiece → String
  | HtmlPiece.head y t a c => headHtml y t a c
  | HtmlPiece.tocOpen => "\n    <div class=\"toc\">\n        <h3>Table of Contents</h3>\n        <ul>\n"
  | HtmlPiece.tocItem anc t => "            <li><a href=\"#" ++ anc ++ "\">" ++ t ++ "</a></li>\n"
  | HtmlPiece.tocClose => "\n        </ul>\n    </div>\n"
  | HtmlPiece.h2 anc t => "    <h2 id=\"" ++ anc ++ "\">" ++ t ++ "</h2>\n"
  | HtmlPiece.questionDiv q => "    <div class=\"question\">" ++ q ++ "</div>\n"
  | HtmlPiece.answerP t => "    <p>" ++ t ++ "</p>\n"
  | HtmlPiece.image b => "    <img src=\"data:image/jpeg;base64," ++ b ++ "\" class=\"story-image\">\n"
  | HtmlPiece.caption t => "    <p class=\"image-caption\">" ++ t ++ "</p>\n"
  | HtmlPiece.hrPiece => "    <hr style=\"margin: 30px 0; border: none; border-top: 1px dashed #ccc;\">\n"
  | HtmlPiece.tail => "\n</body>\n</html>"

/-- Embedding of generate_html (biography_publisher.py:343-530): the
concatenation, in order, of every string the source appends to the html
accumulator. -/
def generate_html (year : Nat) (title author : String) (ss : List Story)
    (fmt : String) (toc incImg : Bool) (cov : Option (List Nat)) : String :=
  String.join ((htmlPieces year title author ss fmt toc incImg cov).map renderPiece)

/-- Content of one zip entry: text written by writestr for the HTML file,
bytes for a decoded image. -/
inductive ZipData where
  | ofStr (s : String)
  | ofBytes (b : List Nat)
deriving DecidableEq

/-- Entry name of a story image inside the archive
(biography_publisher.py:554). -/
def imgEntryName (i j : Nat) : String :=
  "images/image_" ++ toString i ++ "_" ++ toString j ++ ".jpg"

/-- The inner image loop of generate_zip (lines 550-557): the entry index
j follows enumerate over the story's image list; an image with empty
base64 is skipped by the truthiness test and a failing decode is skipped
by the try/except. -/
def zipStoryImages (i : Nat) : Nat → List Image → List (String × ZipData)
  | _, [] => []
  | j, img :: rest =>
    (if img.base64 ≠ "" then
      match b64decode img.base64 with
      | some d => [(imgEntryName i j, ZipData.ofBytes d)]
      | none => []
     else [])
      ++ zipStoryImages i (j + 1) rest

/-- The outer story loop of generate_zip (lines 549-557): the entry index
i follows enumerate over the story list. -/
def zipImagesLoop : Nat → List Story → List (String × ZipData)
  | _, [] => []
  | i, s :: rest => zipStoryImages i 0 s.images ++ zipImagesLoop (i + 1) rest

/-- Name of the HTML entry in the archive (line 544): the title with
spaces replaced by underscores, plus the html extension. -/
def htmlFilename (title : String) : String :=
  String.mk (replaceChar ' ' ['_'] title.data) ++ ".html"

/-- Embedding of generate_zip (biography_publisher.py:532-559) as the
ordered list of entries written to the archive: first the HTML file built
by generate_html with the same arguments, then, when include_images is
set, the decoded story images. -/
def generate_zip (year : Nat) (title author : String) (ss : List Story)
    (fmt : String) (toc incImg : Bool) (cov : Option (List Nat)) : List (String × ZipData) :=
  (htmlFilename title, ZipData.ofStr (generate_html year title author ss fmt toc incImg cov))
    :: (if incImg then zipImagesLoop 0 ss else [])

end BiographyPublisher

namespace Biographer

open TellMyStory

/-- One rendered text of the FPDF document: its content and the font style
and size in force when the cell call runs. -/
structure PdfText where
  text : String
  style : String
  size : Nat
deriving DecidableEq

/-- One drawing operation issued by generate_pdf (biographer.py:1560-1595).
Color and font-state calls are folded into the text operations; the
header/footer callbacks draw fixed ASCII literals on each page and are not
listed separately. -/
inductive PdfOp where
  | addPage
  | rect
  | cell (t : PdfText)
  | multiCell (t : PdfText)
  | ln (n : Nat)
deriving DecidableEq

/-- The character filter of generate_pdf (lines 1568-1569 and 1585-1586):
keep only characters with code point below 128. -/
def asciiOnly (s : String) : String :=
  String.mk (s.data.filter (fun c => c.toNat < 128))

/-- The operations issued for one story record by the loop of generate_pdf
(lines 1581-1593): bold question, then answer, both ASCII-filtered,
regardless of format_style. -/
def pdfStoryOps (s : Story) : List PdfOp :=
  [PdfOp.multiCell ⟨asciiOnly s.question, "B", 12⟩, PdfOp.ln 2,
   PdfOp.multiCell ⟨asciiOnly s.answer_text, "", 11⟩, PdfOp.ln 5]

/-- Embedding of generate_pdf (biographer.py:1560-1595) as the ordered
list of drawing operations.  The final output call encodes the buffer as
latin-1 with unencodable characters ignored; every rendered character is
already ASCII by then. -/
def generate_pdf (book_title author_name : String) (ss : List Story)
    (format_style : String) (include_toc include_dates : Bool) : List PdfOp :=
  [PdfOp.addPage, PdfOp.rect,
   PdfOp.cell ⟨"", "B", 30⟩,
   PdfOp.cell ⟨(if asciiOnly book_title ≠ "" then asciiOnly book_title else "My Story"), "B", 30⟩,
   PdfOp.cell ⟨(if asciiOnly author_name ≠ "" then "by " ++ asciiOnly author_name else "by Author"), "", 16⟩,
   PdfOp.addPage]
  ++ ss.flatMap pdfStoryOps

/-- The text rendered by an operation; empty for non-text operations. -/
def pdfOpText : PdfOp → String
  | PdfOp.cell t => t.text
  | PdfOp.multiCell t => t.text
  | _ => ""

end Biographer

namespace SpecModelled

open TellMyStory

/-- One block of the RTF text buffer. -/
inductive RtfItem where
  | header
  | titleLine (t : String)
  | authorLine (t : String)
  | copyrightLine (t : String)
  | sessionHeading (t : String)
  | questionPara (t : String)
  | answerPara (t : String)
deriving DecidableEq

/-- Modelled from the spec: no RTF generator is among the provided source
files; spec section 4.6 describes a per-session centered heading followed
by, if interview, bold question paragraphs, then answer paragraphs, with
session grouping by consecutive runs of identical session_title per
section 3. -/
def rtfChunks (fmt : String) : Option String → List Story → List RtfItem
  | _, [] => []
  | cur, s :: rest =>
    (if decide (some s.session_title ≠ cur) then [RtfItem.sessionHeading s.session_title] else [])
    ++ (if fmt = "interview" then [RtfItem.questionPara s.question] else [])
    ++ [RtfItem.answerPara s.answer_text]
    ++ rtfChunks fmt (some s.session_title) rest

/-- Modelled from the spec: the RTF generator of section 4.6 — document
header, centered title, author and copyright block, then the per-session
body. -/
def generate_rtf (title author : String) (ss : List Story) (fmt : String) : List RtfItem :=
  [RtfItem.header, RtfItem.titleLine title, RtfItem.authorLine author,
   RtfItem.copyrightLine author]
  ++ rtfChunks fmt none ss

/-- One content page of the EPUB package. -/
structure EpubChapter where
  title : String
  content : List String
deriving DecidableEq

/-- The EPUB package: front matter page plus the spine of content pages. -/
structure EpubBook where
  front : EpubChapter
  chapters : List EpubChapter
deriving DecidableEq

/-- Modelled from the spec: no EPUB generator is among the provided source
files; spec section 4.4 describes one front matter page, then one content
page per story record, titled by its session_title, embedding the question
only for the interview style followed by the answer text. -/
def generate_epub (title author : String) (ss : List Story) (fmt : String) : EpubBook :=
  ⟨⟨title, ["by " ++ author]⟩,
   ss.map (fun s =>
     ⟨s.session_title,
      (if fmt = "interview" then [s.question] else []) ++ [s.answer_text]⟩)⟩

/-- The titles of the session headings emitted by the RTF generator. -/
def rtfSessionTitles (items : List RtfItem) : List String :=
  items.filterMap (fun it =>
    match it with
    | RtfItem.sessionHeading t => some t
    | _ => none)

end SpecModelled

namespace BiographyPublisher

/-- The title of a heading block, none for any other block. -/
def headingTitle : DocxBlock → Option String
  | DocxBlock.heading _ t => some t
  | _ => none

/-- The session title carried by an h2 piece, none for any other piece. -/
def h2Title : HtmlPiece → Option String
  | HtmlPiece.h2 _ t => some t
  | _ => none

/-- Whether a block has the exact shape of the interview question
paragraph of generate_docx: one bold italic unsized run, left aligned,
no named style. -/
def isQuestionBlock : DocxBlock → Bool
  | DocxBlock.paragraph [⟨_, true, true, none⟩] false none => true
  | _ => false

/-- Whether a block has the exact shape of an answer paragraph of
generate_docx: one plain unsized run, left aligned, no named style. -/
def isAnswerBlock : DocxBlock → Bool
  | DocxBlock.paragraph [⟨_, false, false, none⟩] false none => true
  | _ => false

/-- Whether a block is a question or answer paragraph. -/
def isQABlock (b : DocxBlock) : Bool := isQuestionBlock b || isAnswerBlock b

/-- Whether a piece is a question div or an answer paragraph. -/
def isQAPiece : HtmlPiece → Bool
  | HtmlPiece.questionDiv _ => true
  | HtmlPiece.answerP _ => true
  | _ => false

end BiographyPublisher

namespace Biographer

/-- The text and font style of a multi-cell operation, none otherwise. -/
def pdfTextProj : PdfOp → Option (String × String)
  | PdfOp.multiCell t => some (t.text, t.style)
  | _ => none

end Biographer

namespace TellMyStory

theorem stripTags_of_no_lt : ∀ l, '<' ∉ l → stripTags l = l := by
  intro l
  induction l with
  | nil => intro _; exact stripTags_nil
  | cons c cs ih =>
    intro h
    have hc : c ≠ '<' := fun he => h (he ▸ List.mem_cons_self c cs)
    rw [stripTags_cons_ne c cs hc, ih (fun hm => h (List.mem_cons_of_mem _ hm))]

theorem stripTags_append_no_lt : ∀ (pre l : List Char), '<' ∉ pre →
    stripTags (pre ++ l) = pre ++ stripTags l := by
  intro pre
  induction pre with
  | nil => intro l _; simp
  | cons c cs ih =>
    intro l h
    have hc : c ≠ '<' := fun he => h (he ▸ List.mem_cons_self c cs)
    rw [List.cons_append, stripTags_cons_ne c _ hc,
      ih l (fun hm => h (List.mem_cons_of_mem _ hm))]
    rfl

theorem stripTags_example :
    stripTags "<p>Hello <b>World</b></p>".data = "Hello World".data := by
  rw [show ("<p>Hello <b>World</b></p>".data) = '<' :: "p>Hello <b>World</b></p>".data from rfl]
  rw [stripTags_lt_match _ _ _
    (show splitAtGt "p>Hello <b>World</b></p>".data
      = some (['p'], "Hello <b>World</b></p>".data) from rfl) (by decide)]
  rw [show ("Hello <b>World</b></p>".data) = "Hello ".data ++ "<b>World</b></p>".data from rfl]
  rw [stripTags_append_no_lt _ _ (by decide)]
  rw [show ("<b>World</b></p>".data) = '<' :: "b>World</b></p>".data from rfl]
  rw [stripTags_lt_match _ _ _
    (show splitAtGt "b>World</b></p>".data
      = some (['b'], "World</b></p>".data) from rfl) (by decide)]
  rw [show ("World</b></p>".data) = "World".data ++ "</b></p>".data from rfl]
  rw [stripTags_append_no_lt _ _ (by decide)]
  rw [show ("</b></p>".data) = '<' :: "/b></p>".data from rfl]
  rw [stripTags_lt_match _ _ _
    (show splitAtGt "/b></p>".data = some (['/', 'b'], "</p>".data) from rfl) (by decide)]
  rw [show ("</p>".data) = '<' :: "/p>".data from rfl]
  rw [stripTags_lt_match _ _ _
    (show splitAtGt "/p>".data = some (['/', 'p'], ([] : List Char)) from rfl) (by decide)]
  rw [stripTags_nil]
  rfl

end TellMyStory

open TellMyStory

/-- C5: the shared text-cleaning step (the tag stripping applied to answer
markup before export) is idempotent: cleaning a string twice gives the
same result as cleaning it once, on every string, including already-plain
text. -/
theorem claim_c5_clean_text_idempotent (x : String) :
    clean_text (clean_text x) = clean_text x :=
  congrArg String.mk (stripTags_idem x.data)

/-- C6 counterexample: the text-cleaning step neither decodes HTML
entities nor trims surrounding whitespace — on the input built from a
space-padded ampersand entity it returns the input unchanged, not the
decoded and trimmed ampersand the claim requires. -/
theorem claim_c6_counterexample :
    clean_text " &amp; " = " &amp; " ∧ (" &amp; " : String) ≠ "&" :=
  ⟨congrArg String.mk (stripTags_of_no_gt _ (by decide)), by decide⟩

/-- C6 (amended): the text sanitizer strips embedded well-formed tags and
does nothing else — any string without a less-than sign passes through
unchanged (so no entity decoding and no whitespace trimming occurs), and
on the tagged example the tags are stripped. -/
theorem claim_c6_strip_only :
    (∀ x : String, '<' ∉ x.data → clean_text x = x)
    ∧ clean_text "<p>Hello <b>World</b></p>" = "Hello World" :=
  ⟨fun x h => congrArg String.mk (stripTags_of_no_lt x.data h),
   congrArg String.mk stripTags_example⟩

/-- C6 witness: the universal part of the amended claim applied to a
concrete entity-bearing, space-padded string. -/
theorem claim_c6_strip_only_witness : clean_text " &quot; " = " &quot; " :=
  claim_c6_strip_only.1 " &quot; " (by decide)

theorem asciiOnly_mem (s : String) (c : Char) (h : c ∈ (Biographer.asciiOnly s).data) :
    c.toNat < 128 := by
  have h' : c ∈ s.data.filter (fun c => c.toNat < 128) := h
  exact of_decide_eq_true (List.mem_filter.mp h').2

/-- C7: for every input, every character of every text rendered by
generate_pdf has code point below 128: characters outside the output
encoding's range are dropped by the filters rather than raising, so the
final latin-1 encoding step cannot fail. -/
theorem claim_c7_pdf_ascii (t a : String) (ss : List Story) (fmt : String)
    (toc dates : Bool) :
    ∀ op ∈ Biographer.generate_pdf t a ss fmt toc dates,
      ∀ c ∈ (Biographer.pdfOpText op).data, c.toNat < 128 := by
  intro op hop c hc
  simp only [Biographer.generate_pdf, List.mem_append, List.mem_cons,
    List.mem_singleton, List.mem_flatMap] at hop
  rcases hop with (h | h | h | h | h | h) | ⟨s, _, h⟩
  · subst h; simp [Biographer.pdfOpText] at hc
  · subst h; simp [Biographer.pdfOpText] at hc
  · subst h; simp [Biographer.pdfOpText] at hc
  · subst h
    simp only [Biographer.pdfOpText] at hc
    by_cases ht : Biographer.asciiOnly t ≠ ""
    · rw [if_pos ht] at hc; exact asciiOnly_mem t c hc
    · rw [if_neg ht] at hc; revert c; decide
  · subst h
    simp only [Biographer.pdfOpText] at hc
    by_cases ha : Biographer.asciiOnly a ≠ ""
    · rw [if_pos ha] at hc
      rw [String.data_append] at hc
      rcases List.mem_append.mp hc with hb | hb
      · have hby : ∀ x ∈ "by ".data, x.toNat < 128 := by decide
        exact hby c hb
      · exact asciiOnly_mem a c hb
    · rw [if_neg ha] at hc; revert c; decide
  · rcases h with h | h
    · subst h; simp [Biographer.pdfOpText] at hc
    · simp at h
  · have h' : op ∈ [Biographer.PdfOp.multiCell ⟨Biographer.asciiOnly s.question, "B", 12⟩,
        Biographer.PdfOp.ln 2,
        Biographer.PdfOp.multiCell ⟨Biographer.asciiOnly s.answer_text, "", 11⟩,
        Biographer.PdfOp.ln 5] := h
    cases h' with
    | head => exact asciiOnly_mem s.question c hc
    | tail _ h2 =>
      cases h2 with
      | head => simp [Biographer.pdfOpText] at hc
      | tail _ h3 =>
        cases h3 with
        | head => exact asciiOnly_mem s.answer_text c hc
        | tail _ h4 =>
          cases h4 with
          | head => simp [Biographer.pdfOpText] at hc
          | tail _ h5 => cases h5

/-- C7 witness: the theorem applied at a concrete input whose question
contains a non-ASCII character that the filter drops. -/
theorem claim_c7_pdf_ascii_witness : ('H' : Char).toNat < 128 :=
  claim_c7_pdf_ascii "T" "A" [⟨"Héllo", "ans", "S", []⟩] "interview" true false
    (Biographer.PdfOp.multiCell ⟨"Hllo", "B", 12⟩) (by decide) 'H' (by decide)

namespace BiographyPublisher

theorem docxAnswerParas_no_heading (a : String) :
    (docxAnswerParas a).filterMap headingTitle = [] := by
  rw [List.filterMap_eq_nil]
  intro b hb
  simp only [docxAnswerParas] at hb
  split at hb
  · obtain ⟨p, _, hp⟩ := List.mem_filterMap.mp hb
    split at hp
    · cases hp; rfl
    · cases hp
  · cases hb

theorem docxImageBlocks_no_heading (imgs : List Image) :
    (docxImageBlocks imgs).filterMap headingTitle = [] := by
  rw [List.filterMap_eq_nil]
  intro b hb
  obtain ⟨img, _, hp⟩ := List.mem_flatMap.mp hb
  split at hp
  · split at hp
    · rcases List.mem_cons.mp hp with h | h
      · subst h; rfl
      · split at h
        · rcases List.mem_singleton.mp h with rfl; rfl
        · cases h
    · cases hp
  · cases hp

theorem docxChunkImages_no_heading (incImg : Bool) (s : Story) :
    ((if incImg && !s.images.isEmpty then docxImageBlocks s.images else []).filterMap
      headingTitle) = [] := by
  split
  · exact docxImageBlocks_no_heading s.images
  · rfl

theorem docxChunk_filterMap_heading (fmt : String) (incImg : Bool) (e : Bool) (s : Story) :
    (docxChunk fmt incImg e s).filterMap headingTitle
      = if e = true then [s.session_title] else [] := by
  simp only [docxChunk, List.filterMap_append, docxAnswerParas_no_heading]
  rw [show (docxQuestionBlocks fmt s.question).filterMap headingTitle = [] by
    simp only [docxQuestionBlocks]; split <;> rfl]
  rw [docxChunkImages_no_heading incImg s]
  cases e <;> simp [headingTitle]

theorem htmlImagePieces_no_h2 (imgs : List Image) :
    (htmlImagePieces imgs).filterMap h2Title = [] := by
  rw [List.filterMap_eq_nil]
  intro b hb
  obtain ⟨img, _, hp⟩ := List.mem_flatMap.mp hb
  split at hp
  · rcases List.mem_cons.mp hp with h | h
    · subst h; rfl
    · split at h
      · rcases List.mem_singleton.mp h with rfl; rfl
      · cases h
  · cases hp

theorem htmlChunkImages_no_h2 (incImg : Bool) (s : Story) :
    ((if incImg && !s.images.isEmpty then htmlImagePieces s.images else []).filterMap
      h2Title) = [] := by
  split
  · exact htmlImagePieces_no_h2 s.images
  · rfl

theorem htmlChunk_filterMap_h2 (fmt : String) (incImg : Bool) (e : Bool) (s : Story) :
    (htmlChunk fmt incImg e s).filterMap h2Title
      = if e = true then [s.session_title] else [] := by
  simp only [htmlChunk, List.filterMap_append, htmlImagePieces_no_h2]
  rw [show ((if fmt = "interview" then [HtmlPiece.questionDiv s.question] else []).filterMap
      h2Title) = [] by split <;> rfl]
  rw [show (((escapedParas s.answer_text).map HtmlPiece.answerP).filterMap h2Title) = [] by
    rw [List.filterMap_eq_nil]; intro b hb; obtain ⟨t, _, hp⟩ := List.mem_map.mp hb
    subst hp; rfl]
  rw [htmlChunkImages_no_h2 incImg s]
  cases e <;> simp [h2Title]

theorem docxChunks_getD (fmt : String) (incImg : Bool) :
    ∀ (ss : List Story) (cur : Option String) (i : Nat), i < ss.length →
      ((docxChunks fmt incImg cur ss).getD i []).filterMap headingTitle
        = (if some ((ss.getD i story0).session_title)
              ≠ (if i = 0 then cur else some ((ss.getD (i - 1) story0).session_title))
           then [(ss.getD i story0).session_title] else []) := by
  intro ss
  induction ss with
  | nil => intro cur i h; simp at h
  | cons s rest ih =>
    intro cur i h
    cases i with
    | zero =>
      simp only [docxChunks, List.getD_cons_zero]
      rw [docxChunk_filterMap_heading]
      simp [decide_eq_true_eq]
    | succ n =>
      have hn : n < rest.length := by simpa using h
      simp only [docxChunks, List.getD_cons_succ]
      rw [ih (some s.session_title) n hn]
      cases n with
      | zero => simp
      | succ m => simp

theorem htmlChunks_getD (fmt : String) (incImg : Bool) :
    ∀ (ss : List Story) (cur : Option String) (i : Nat), i < ss.length →
      ((htmlChunks fmt incImg cur ss).getD i []).filterMap h2Title
        = (if some ((ss.getD i story0).session_title)
              ≠ (if i = 0 then cur else some ((ss.getD (i - 1) story0).session_title))
           then [(ss.getD i story0).session_title] else []) := by
  intro ss
  induction ss with
  | nil => intro cur i h; simp at h
  | cons s rest ih =>
    intro cur i h
    cases i with
    | zero =>
      simp only [htmlChunks, List.getD_cons_zero]
      rw [htmlChunk_filterMap_h2]
      simp [decide_eq_true_eq]
    | succ n =>
      have hn : n < rest.length := by simpa using h
      simp only [htmlChunks, List.getD_cons_succ]
      rw [ih (some s.session_title) n hn]
      cases n with
      | zero => simp
      | succ m => simp

end BiographyPublisher

open BiographyPublisher

/-- C1: in both generate_docx and generate_html, the per-record output
chunk carries a session heading bearing that record's session title
exactly when the record is the first one or its session_title differs from
the immediately preceding record's; equal consecutive titles yield no
heading, and a title recurring non-contiguously fires a heading again,
since the loop compares only against the previous record and never
re-sorts. -/
theorem claim_c1_heading_positions (fmt : String) (incImg : Bool) (ss : List Story)
    (i : Nat) (h : i < ss.length) :
    ((docxChunks fmt incImg none ss).getD i []).filterMap headingTitle
      = (if i = 0 ∨ (ss.getD i story0).session_title ≠ (ss.getD (i - 1) story0).session_title
         then [(ss.getD i story0).session_title] else [])
    ∧ ((htmlChunks fmt incImg none ss).getD i []).filterMap h2Title
      = (if i = 0 ∨ (ss.getD i story0).session_title ≠ (ss.getD (i - 1) story0).session_title
         then [(ss.getD i story0).session_title] else []) := by
  constructor
  · rw [docxChunks_getD fmt incImg ss none i h]
    cases i with
    | zero => simp
    | succ n => simp
  · rw [htmlChunks_getD fmt incImg ss none i h]
    cases i with
    | zero => simp
    | succ n => simp

/-- C1 witness: the theorem applied to a concrete three-record list with
session titles A, A, B at position 2, where the heading for B fires. -/
theorem claim_c1_heading_positions_witness :
    ((docxChunks "interview" true none
        [⟨"q1", "x1", "A", []⟩, ⟨"q2", "x2", "A", []⟩, ⟨"q3", "x3", "B", []⟩]).getD 2 []).filterMap
        headingTitle = ["B"]
    ∧ ((htmlChunks "interview" true none
        [⟨"q1", "x1", "A", []⟩, ⟨"q2", "x2", "A", []⟩, ⟨"q3", "x3", "B", []⟩]).getD 2 []).filterMap
        h2Title = ["B"] := by
  have h := claim_c1_heading_positions "interview" true
    [⟨"q1", "x1", "A", []⟩, ⟨"q2", "x2", "A", []⟩, ⟨"q3", "x3", "B", []⟩] 2 (by decide)
  simpa using h

namespace BiographyPublisher

theorem mem_docxAnswerParas (a : String) (b : DocxBlock) (hb : b ∈ docxAnswerParas a) :
    ∃ t, b = DocxBlock.paragraph [⟨t, false, false, none⟩] false none := by
  simp only [docxAnswerParas] at hb
  split at hb
  · obtain ⟨p, _, hp⟩ := List.mem_filterMap.mp hb
    split at hp
    · cases hp; exact ⟨_, rfl⟩
    · cases hp
  · cases hb

theorem docxAnswerParas_filter_qa (a : String) :
    (docxAnswerParas a).filter isQABlock = docxAnswerParas a := by
  rw [List.filter_eq_self]
  intro b hb
  obtain ⟨t, rfl⟩ := mem_docxAnswerParas a b hb
  rfl

theorem docxImageBlocks_filter_qa (imgs : List Image) :
    (docxImageBlocks imgs).filter isQABlock = [] := by
  rw [List.filter_eq_nil]
  intro b hb
  obtain ⟨img, _, hp⟩ := List.mem_flatMap.mp hb
  split at hp
  · split at hp
    · rcases List.mem_cons.mp hp with h | h
      · subst h; simp [isQABlock, isQuestionBlock, isAnswerBlock]
      · split at h
        · rcases List.mem_singleton.mp h with rfl
          simp [isQABlock, isQuestionBlock, isAnswerBlock]
        · cases h
    · cases hp
  · cases hp

theorem docxChunk_filter_qa (fmt : String) (incImg : Bool) (e : Bool) (s : Story) :
    (docxChunk fmt incImg e s).filter isQABlock
      = docxQuestionBlocks fmt s.question ++ docxAnswerParas s.answer_text := by
  simp only [docxChunk, List.filter_append]
  rw [show ((if e = true then [DocxBlock.heading 1 s.session_title] else []).filter isQABlock)
      = [] by split <;> rfl]
  rw [show ((if incImg && !s.images.isEmpty then docxImageBlocks s.images else []).filter
      isQABlock) = [] by split; · exact docxImageBlocks_filter_qa s.images
                         · rfl]
  rw [show ((docxQuestionBlocks fmt s.question).filter isQABlock)
      = docxQuestionBlocks fmt s.question by simp only [docxQuestionBlocks]; split <;> rfl]
  rw [docxAnswerParas_filter_qa]
  simp [isQABlock, isQuestionBlock, isAnswerBlock]

theorem docxChunks_join_filter_qa (fmt : String) (incImg : Bool) :
    ∀ (ss : List Story) (cur : Option String),
      ((docxChunks fmt incImg cur ss).join).filter isQABlock
        = ss.flatMap (fun s => docxQuestionBlocks fmt s.question
            ++ docxAnswerParas s.answer_text) := by
  intro ss
  induction ss with
  | nil => intro cur; rfl
  | cons s rest ih =>
    intro cur
    simp only [docxChunks, List.flatten_cons, List.flatMap_cons, List.filter_append]
    rw [docxChunk_filter_qa, ih (some s.session_title)]

theorem docxFront_filter_qa (year : Nat) (t a : String) (ss : List Story)
    (toc : Bool) (cov : Option (List Nat)) :
    ((docxCoverBlocks cov
      ++ [docxTitlePara t, docxAuthorPara a, DocxBlock.pageBreak,
          docxCopyrightPara year a, DocxBlock.pageBreak]
      ++ docxTocBlocks toc ss).filter isQABlock) = [] := by
  rw [List.filter_eq_nil]
  intro b hb
  rcases List.mem_append.mp hb with h | h
  · rcases List.mem_append.mp h with h | h
    · cases cov with
      | none => cases h
      | some bs =>
        rcases List.mem_cons.mp h with h | h
        · subst h; simp [isQABlock, isQuestionBlock, isAnswerBlock]
        · rcases List.mem_singleton.mp h with rfl
          simp [isQABlock, isQuestionBlock, isAnswerBlock]
    · rcases List.mem_cons.mp h with h | h
      · subst h; simp [docxTitlePara, isQABlock, isQuestionBlock, isAnswerBlock]
      · rcases List.mem_cons.mp h with h | h
        · subst h; simp [docxAuthorPara, isQABlock, isQuestionBlock, isAnswerBlock]
        · rcases List.mem_cons.mp h with h | h
          · subst h; simp [isQABlock, isQuestionBlock, isAnswerBlock]
          · rcases List.mem_cons.mp h with h | h
            · subst h; simp [docxCopyrightPara, isQABlock, isQuestionBlock, isAnswerBlock]
            · rcases List.mem_singleton.mp h with rfl
              simp [isQABlock, isQuestionBlock, isAnswerBlock]
  · unfold docxTocBlocks at h
    split at h
    · rcases List.mem_cons.mp h with h | h
      · subst h; simp [isQABlock, isQuestionBlock, isAnswerBlock]
      · rcases List.mem_append.mp h with h | h
        · obtain ⟨tt, _, hp⟩ := List.mem_map.mp h
          subst hp; simp [isQABlock, isQuestionBlock, isAnswerBlock]
        · rcases List.mem_singleton.mp h with rfl
          simp [isQABlock, isQuestionBlock, isAnswerBlock]
    · cases h

end BiographyPublisher

namespace BiographyPublisher

theorem htmlImagePieces_filter_qa (imgs : List Image) :
    (htmlImagePieces imgs).filter isQAPiece = [] := by
  rw [List.filter_eq_nil]
  intro b hb
  obtain ⟨img, _, hp⟩ := List.mem_flatMap.mp hb
  split at hp
  · rcases List.mem_cons.mp hp with h | h
    · subst h; simp [isQAPiece]
    · split at h
      · rcases List.mem_singleton.mp h with rfl
        simp [isQAPiece]
      · cases h
  · cases hp

theorem htmlChunkImages_filter_qa (incImg : Bool) (s : Story) :
    ((if incImg && !s.images.isEmpty then htmlImagePieces s.images else []).filter
      isQAPiece) = [] := by
  split
  · exact htmlImagePieces_filter_qa s.images
  · rfl

theorem htmlChunk_filter_qa (fmt : String) (incImg : Bool) (e : Bool) (s : Story) :
    (htmlChunk fmt incImg e s).filter isQAPiece
      = (if fmt = "interview" then [HtmlPiece.questionDiv s.question] else [])
        ++ (escapedParas s.answer_text).map HtmlPiece.answerP := by
  simp only [htmlChunk, List.filter_append]
  rw [show ((if e = true then [HtmlPiece.h2 (anchorOf s.session_title) s.session_title]
      else []).filter isQAPiece) = [] by split <;> rfl]
  rw [show ((if fmt = "interview" then [HtmlPiece.questionDiv s.question] else []).filter
      isQAPiece) = (if fmt = "interview" then [HtmlPiece.questionDiv s.question] else [])
      by split <;> rfl]
  rw [show (((escapedParas s.answer_text).map HtmlPiece.answerP).filter isQAPiece)
      = (escapedParas s.answer_text).map HtmlPiece.answerP by
    rw [List.filter_eq_self]
    intro b hb
    obtain ⟨tt, _, hp⟩ := List.mem_map.mp hb
    subst hp; rfl]
  rw [htmlChunkImages_filter_qa incImg s]
  simp [isQAPiece]

theorem htmlChunks_join_filter_qa (fmt : String) (incImg : Bool) :
    ∀ (ss : List Story) (cur : Option String),
      ((htmlChunks fmt incImg cur ss).join).filter isQAPiece
        = ss.flatMap (fun s => (if fmt = "interview" then [HtmlPiece.questionDiv s.question]
            else []) ++ (escapedParas s.answer_text).map HtmlPiece.answerP) := by
  intro ss
  induction ss with
  | nil => intro cur; rfl
  | cons s rest ih =>
    intro cur
    simp only [htmlChunks, List.flatten_cons, List.flatMap_cons, List.filter_append]
    rw [htmlChunk_filter_qa, ih (some s.session_title)]

theorem htmlTocPieces_filter_qa (toc : Bool) (ss : List Story) :
    (htmlTocPieces toc ss).filter isQAPiece = [] := by
  rw [List.filter_eq_nil]
  intro b hb
  unfold htmlTocPieces at hb
  split at hb
  · rcases List.mem_cons.mp hb with h | h
    · subst h; simp [isQAPiece]
    · rcases List.mem_append.mp h with h | h
      · obtain ⟨tt, _, hp⟩ := List.mem_map.mp h
        subst hp; simp [isQAPiece]
      · rcases List.mem_singleton.mp h with rfl
        simp [isQAPiece]
  · cases hb

end BiographyPublisher

namespace Biographer

theorem pdf_filterMap_texts :
    ∀ (ss : List Story),
      ((ss.flatMap pdfStoryOps).filterMap pdfTextProj)
        = ss.flatMap (fun s => [(asciiOnly s.question, "B"), (asciiOnly s.answer_text, "")]) := by
  intro ss
  induction ss with
  | nil => rfl
  | cons s rest ih =>
    simp only [List.flatMap_cons, List.filterMap_append]
    rw [ih]
    rfl

end Biographer

/-- C3 counterexample: with format_style set to biography — a recognized
value other than interview — generate_pdf still renders the question text
as a bold multi-cell, so the claim that no generator emits question text
for such styles is false. -/
theorem claim_c3_counterexample :
    Biographer.PdfOp.multiCell ⟨"Where were you born?", "B", 12⟩
      ∈ Biographer.generate_pdf "T" "Z"
          [⟨"Where were you born?", "Springfield.", "S", []⟩] "biography" true false := by
  decide

/-- C3 (amended): in biography_publisher, generate_docx and generate_html
emit the cleaned question immediately before the record's answer
paragraphs when format_style is interview and emit no question paragraph
for any other format_style; biographer's generate_pdf, however, renders
every record's question (bold) before its answer for every format_style,
ignoring the parameter. -/
theorem claim_c3_question_emission (year : Nat) (t a : String) (ss : List Story)
    (fmt : String) (toc incImg dates : Bool) (cov : Option (List Nat)) :
    (generate_docx year t a ss fmt toc incImg cov).filter isQABlock
      = ss.flatMap (fun s => docxQuestionBlocks fmt s.question ++ docxAnswerParas s.answer_text)
    ∧ (htmlPieces year t a ss fmt toc incImg cov).filter isQAPiece
      = ss.flatMap (fun s => (if fmt = "interview" then [HtmlPiece.questionDiv s.question]
          else []) ++ (escapedParas s.answer_text).map HtmlPiece.answerP)
    ∧ (Biographer.generate_pdf t a ss fmt toc dates).filterMap Biographer.pdfTextProj
      = ss.flatMap (fun s => [(Biographer.asciiOnly s.question, "B"),
          (Biographer.asciiOnly s.answer_text, "")]) := by
  refine ⟨?_, ?_, ?_⟩
  · have htoc : (docxTocBlocks toc ss).filter isQABlock = [] := by
      have h := docxFront_filter_qa year t a ss toc cov
      simp only [List.filter_append, List.append_eq_nil] at h
      exact h.2
    unfold generate_docx
    simp only [List.filter_append]
    rw [show (docxCoverBlocks cov).filter isQABlock = [] by cases cov <;> rfl]
    rw [show ([docxTitlePara t, docxAuthorPara a, DocxBlock.pageBreak,
        docxCopyrightPara year a, DocxBlock.pageBreak].filter isQABlock) = [] from rfl]
    rw [htoc, docxChunks_join_filter_qa]
    simp
  · unfold htmlPieces
    simp only [List.filter_cons, List.filter_append]
    rw [htmlTocPieces_filter_qa, htmlChunks_join_filter_qa]
    simp [isQAPiece]
  · unfold Biographer.generate_pdf
    rw [List.filterMap_append]
    rw [show (([Biographer.PdfOp.addPage, Biographer.PdfOp.rect,
        Biographer.PdfOp.cell ⟨"", "B", 30⟩,
        Biographer.PdfOp.cell ⟨(if Biographer.asciiOnly t ≠ "" then Biographer.asciiOnly t
          else "My Story"), "B", 30⟩,
        Biographer.PdfOp.cell ⟨(if Biographer.asciiOnly a ≠ ""
          then "by " ++ Biographer.asciiOnly a else "by Author"), "", 16⟩,
        Biographer.PdfOp.addPage]).filterMap Biographer.pdfTextProj) = [] from rfl]
    rw [Biographer.pdf_filterMap_texts]
    rfl

namespace TellMyStory

theorem mem_replaceChar (c : Char) (rep : List Char) (l : List Char) (x : Char)
    (h : x ∈ replaceChar c rep l) : x ∈ rep ∨ (x ∈ l ∧ x ≠ c) := by
  obtain ⟨a, ha, hx⟩ := List.mem_flatMap.mp h
  by_cases hac : a = c
  · rw [if_pos hac] at hx
    exact Or.inl hx
  · rw [if_neg hac] at hx
    rcases List.mem_singleton.mp hx with rfl
    exact Or.inr ⟨ha, hac⟩

theorem escapeChars_no_angles (l : List Char) :
    '<' ∉ escapeChars l ∧ '>' ∉ escapeChars l := by
  constructor
  · intro h
    rcases mem_replaceChar _ _ _ _ h with h1 | ⟨h1, _⟩
    · simp at h1
    · rcases mem_replaceChar _ _ _ _ h1 with h2 | ⟨_, h2⟩
      · simp at h2
      · exact h2 rfl
  · intro h
    rcases mem_replaceChar _ _ _ _ h with h1 | ⟨_, h1⟩
    · simp at h1
    · exact h1 rfl

theorem pyEscape_no_angles (s : String) :
    '<' ∉ (pyEscape s).data ∧ '>' ∉ (pyEscape s).data :=
  escapeChars_no_angles s.data

end TellMyStory

namespace BiographyPublisher

theorem mem_escapedParas (a : String) (t : String) (h : t ∈ escapedParas a) :
    ∃ u, t = pyEscape u := by
  unfold escapedParas at h
  split at h
  · obtain ⟨p, _, hp⟩ := List.mem_filterMap.mp h
    split at hp
    · cases hp; exact ⟨_, rfl⟩
    · cases hp
  · cases h

theorem htmlChunk_answer_caption (fmt : String) (incImg : Bool) (e : Bool) (s : Story)
    (p : HtmlPiece) (hp : p ∈ htmlChunk fmt incImg e s) (x : String)
    (hx : p = HtmlPiece.answerP x ∨ p = HtmlPiece.caption x) :
    ∃ u, x = pyEscape u := by
  unfold htmlChunk at hp
  rcases List.mem_append.mp hp with hp1 | hp1
  · rcases List.mem_append.mp hp1 with hp2 | hp2
    · rcases List.mem_append.mp hp2 with hp3 | hp3
      · rcases List.mem_append.mp hp3 with hp4 | hp4
        · split at hp4
          · rcases List.mem_singleton.mp hp4 with rfl
            rcases hx with hx | hx <;> cases hx
          · cases hp4
        · split at hp4
          · rcases List.mem_singleton.mp hp4 with rfl
            rcases hx with hx | hx <;> cases hx
          · cases hp4
      · obtain ⟨tt, htt, hmap⟩ := List.mem_map.mp hp3
        subst hmap
        rcases hx with hx | hx
        · injection hx with hx
          subst hx
          exact mem_escapedParas s.answer_text tt htt
        · cases hx
    · split at hp2
      · obtain ⟨img, _, hi⟩ := List.mem_flatMap.mp hp2
        split at hi
        · rcases List.mem_cons.mp hi with hi1 | hi1
          · subst hi1
            rcases hx with hx | hx <;> cases hx
          · split at hi1
            · rcases List.mem_singleton.mp hi1 with rfl
              rcases hx with hx | hx
              · cases hx
              · injection hx with hx
                subst hx
                exact ⟨img.caption, rfl⟩
            · cases hi1
        · cases hi
      · cases hp2
  · rcases List.mem_singleton.mp hp1 with rfl
    rcases hx with hx | hx <;> cases hx

theorem mem_htmlChunks_join (fmt : String) (incImg : Bool) :
    ∀ (ss : List Story) (cur : Option String) (p : HtmlPiece),
      p ∈ (htmlChunks fmt incImg cur ss).join →
      ∃ e s, s ∈ ss ∧ p ∈ htmlChunk fmt incImg e s := by
  intro ss
  induction ss with
  | nil => intro cur p h; cases h
  | cons s rest ih =>
    intro cur p h
    simp only [htmlChunks, List.flatten_cons] at h
    rcases List.mem_append.mp h with h1 | h1
    · exact ⟨_, s, List.mem_cons_self s rest, h1⟩
    · obtain ⟨e, s', hs', hp⟩ := ih (some s.session_title) p h1
      exact ⟨e, s', List.mem_cons_of_mem s hs', hp⟩

theorem chunk_mem_htmlChunks (fmt : String) (incImg : Bool) :
    ∀ (ss : List Story) (cur : Option String) (s : Story), s ∈ ss →
      ∃ e, htmlChunk fmt incImg e s ∈ htmlChunks fmt incImg cur ss := by
  intro ss
  induction ss with
  | nil => intro cur s h; cases h
  | cons s0 rest ih =>
    intro cur s h
    rcases List.mem_cons.mp h with h1 | h1
    · subst h1
      exact ⟨_, List.mem_cons_self _ _⟩
    · obtain ⟨e, he⟩ := ih (some s0.session_title) s h1
      exact ⟨e, List.mem_cons_of_mem _ he⟩

end BiographyPublisher


namespace TellMyStory

theorem leadSeg_nilpat : ∀ (l : List Char), leadSeg l [] = true := by
  intro l; cases l <;> rfl

theorem leadSeg_append : ∀ (pat l y : List Char), leadSeg l pat = true →
    leadSeg (l ++ y) pat = true := by
  intro pat
  induction pat with
  | nil => intro l y _; exact leadSeg_nilpat (l ++ y)
  | cons b bs ih =>
    intro l y h
    cases l with
    | nil => cases h
    | cons a as =>
      simp only [leadSeg, Bool.and_eq_true] at h ⊢
      exact ⟨h.1, ih as y h.2⟩

theorem containsRun_nilpat : ∀ (l : List Char), containsRun l [] = true := by
  intro l
  cases l with
  | nil => rfl
  | cons c rest =>
    simp only [containsRun, Bool.or_eq_true]
    exact Or.inl (leadSeg_nilpat (c :: rest))

theorem containsRun_append_left : ∀ (x y pat : List Char), containsRun x pat = true →
    containsRun (x ++ y) pat = true := by
  intro x
  induction x with
  | nil =>
    intro y pat h
    cases pat with
    | nil => exact containsRun_nilpat y
    | cons b bs => cases h
  | cons c rest ih =>
    intro y pat h
    simp only [containsRun, Bool.or_eq_true] at h
    rcases h with h | h
    · simp only [List.cons_append, containsRun, Bool.or_eq_true]
      exact Or.inl (leadSeg_append pat (c :: rest) y h)
    · simp only [List.cons_append, containsRun, Bool.or_eq_true]
      exact Or.inr (ih y pat h)

theorem containsRun_append_right : ∀ (x y pat : List Char), containsRun y pat = true →
    containsRun (x ++ y) pat = true := by
  intro x
  induction x with
  | nil => intro y pat h; exact h
  | cons c rest ih =>
    intro y pat h
    simp only [List.cons_append, containsRun, Bool.or_eq_true]
    exact Or.inr (ih y pat h)

theorem foldl_append_data : ∀ (l : List String) (acc : String),
    (List.foldl (fun a b => a ++ b) acc l).data = acc.data ++ (l.map String.data).flatten := by
  intro l
  induction l with
  | nil => intro acc; simp
  | cons a rest ih =>
    intro acc
    simp only [List.foldl_cons, List.map_cons, List.flatten_cons]
    rw [ih (acc ++ a)]
    simp [String.data_append]

theorem string_join_data (l : List String) :
    (String.join l).data = (l.map String.data).flatten := by
  have h := foldl_append_data l ""
  simpa [String.join] using h

theorem containsSub_join_of_mem (l : List String) (p pat : String) (hp : p ∈ l)
    (h : containsSub p pat = true) : containsSub (String.join l) pat = true := by
  unfold containsSub
  rw [string_join_data]
  obtain ⟨l1, l2, rfl⟩ := List.append_of_mem hp
  rw [List.map_append, List.flatten_append, List.map_cons, List.flatten_cons]
  apply containsRun_append_right
  exact containsRun_append_left p.data _ pat.data h

end TellMyStory

/-- C2 counterexample: a question containing a script tag is inserted into
the HTML output verbatim — the raw markup occurs as a substring of the
emitted document, so it is not true that every user-supplied field is
escaped before insertion. -/
theorem claim_c2_counterexample :
    containsSub
      (generate_html 2026 "T" "A"
        [⟨"<script>alert(1)</script>", "ans", "S", []⟩] "interview" false false none)
      "<script>alert(1)</script>" = true := by
  unfold generate_html
  apply containsSub_join_of_mem _ (renderPiece (HtmlPiece.questionDiv "<script>alert(1)</script>"))
  · exact List.mem_map_of_mem renderPiece (by decide)
  · decide

/-- C2 (amended): only answer paragraphs and image captions are
HTML-escaped before insertion — every emitted answer paragraph or caption
text is an escaped string and so carries no angle bracket — while the
question text (like the title, author and session titles) is inserted
verbatim as an HtmlPiece carrying the raw field. -/
theorem claim_c2_escaping (year : Nat) (t a : String) (ss : List Story)
    (fmt : String) (toc incImg : Bool) (cov : Option (List Nat)) :
    (∀ p ∈ htmlPieces year t a ss fmt toc incImg cov, ∀ x : String,
        p = HtmlPiece.answerP x ∨ p = HtmlPiece.caption x →
          '<' ∉ x.data ∧ '>' ∉ x.data)
    ∧ (fmt = "interview" → ∀ s ∈ ss, HtmlPiece.questionDiv s.question
        ∈ htmlPieces year t a ss fmt toc incImg cov) := by
  constructor
  · intro p hp x hx
    unfold htmlPieces at hp
    rcases List.mem_cons.mp hp with h | h
    · subst h; rcases hx with hx | hx <;> cases hx
    · rcases List.mem_append.mp h with h1 | h1
      · rcases List.mem_append.mp h1 with h2 | h2
        · unfold htmlTocPieces at h2
          split at h2
          · rcases List.mem_cons.mp h2 with h3 | h3
            · subst h3; rcases hx with hx | hx <;> cases hx
            · rcases List.mem_append.mp h3 with h4 | h4
              · obtain ⟨tt, _, hmap⟩ := List.mem_map.mp h4
                subst hmap; rcases hx with hx | hx <;> cases hx
              · rcases List.mem_singleton.mp h4 with rfl
                rcases hx with hx | hx <;> cases hx
          · cases h2
        · obtain ⟨e, s, _, hps⟩ := mem_htmlChunks_join fmt incImg ss none p h2
          obtain ⟨u, hu⟩ := htmlChunk_answer_caption fmt incImg e s p hps x hx
          subst hu
          exact pyEscape_no_angles u
      · rcases List.mem_singleton.mp h1 with rfl
        rcases hx with hx | hx <;> cases hx
  · intro hfmt s hs
    obtain ⟨e, he⟩ := chunk_mem_htmlChunks fmt incImg ss none s hs
    have hq : HtmlPiece.questionDiv s.question ∈ htmlChunk fmt incImg e s := by
      unfold htmlChunk
      apply List.mem_append_left
      apply List.mem_append_left
      apply List.mem_append_left
      apply List.mem_append_right
      rw [if_pos hfmt]
      exact List.mem_singleton.mpr rfl
    unfold htmlPieces
    apply List.mem_cons_of_mem
    apply List.mem_append_left
    apply List.mem_append_right
    exact List.mem_join.mpr ⟨_, he, hq⟩

set_option maxRecDepth 4000 in
/-- C2 witness: the escape half of the amended claim applied to the
answer paragraph emitted for a concrete answer containing an angle
bracket. -/
theorem claim_c2_escaping_witness :
    '<' ∉ ("a&lt;b" : String).data ∧ '>' ∉ ("a&lt;b" : String).data :=
  (claim_c2_escaping 2026 "T" "A" [⟨"q", "a<b", "S", []⟩] "interview" true true none).1
    (HtmlPiece.answerP "a&lt;b") (by decide) "a&lt;b" (Or.inl rfl)

/-- The three-story A, A, B input of the round-trip grouping property. -/
def ssAAB : List Story :=
  [⟨"q1", "x1", "A", []⟩, ⟨"q2", "x2", "A", []⟩, ⟨"q3", "x3", "B", []⟩]

/-- C4 counterexample: on the A, A, B input, generate_pdf renders neither
session title in any of its text operations — it emits no session
headings at all, not the two headings the claim requires of it. -/
theorem claim_c4_counterexample :
    (Biographer.generate_pdf "T" "Z" ssAAB "interview" true false).all
      (fun op => !(containsSub (Biographer.pdfOpText op) "A")
        && !(containsSub (Biographer.pdfOpText op) "B")) = true := by
  decide

/-- C4 (amended): on the A, A, B input the DOCX and HTML generators emit
exactly two session headings, A then B in that order; the PDF generator as
implemented emits no session heading at all; the spec-modelled RTF
generator emits the two headings and the spec-modelled EPUB generator
emits three chapters, one per record, titled A, A, B. -/
theorem claim_c4_heading_counts :
    (generate_docx 2026 "T" "Z" ssAAB "interview" true true none).filterMap headingTitle
      = ["A", "B"]
    ∧ (htmlPieces 2026 "T" "Z" ssAAB "interview" true true none).filterMap h2Title
      = ["A", "B"]
    ∧ (Biographer.generate_pdf "T" "Z" ssAAB "interview" true false).all
        (fun op => !(containsSub (Biographer.pdfOpText op) "A")
          && !(containsSub (Biographer.pdfOpText op) "B")) = true
    ∧ SpecModelled.rtfSessionTitles (SpecModelled.generate_rtf "T" "Z" ssAAB "interview")
        = ["A", "B"]
    ∧ (SpecModelled.generate_epub "T" "Z" ssAAB "interview").chapters.length = 3
    ∧ ((SpecModelled.generate_epub "T" "Z" ssAAB "interview").chapters.map
        SpecModelled.EpubChapter.title) = ["A", "A", "B"] := by
  refine ⟨by decide, by decide, by decide, by decide, by decide, by decide⟩

namespace BiographyPublisher

theorem docxImageBlocks_skip (imgs₁ imgs₂ : List Image) (bad : Image)
    (h : b64decode bad.base64 = none) :
    docxImageBlocks (imgs₁ ++ bad :: imgs₂)
      = docxImageBlocks imgs₁ ++ docxImageBlocks imgs₂ := by
  unfold docxImageBlocks
  rw [List.flatMap_append, List.flatMap_cons]
  simp [h]

theorem zipStoryImages_skip (i : Nat) (bad : Image) (h : b64decode bad.base64 = none) :
    ∀ (imgs₁ : List Image) (j : Nat) (imgs₂ : List Image),
      zipStoryImages i j (imgs₁ ++ bad :: imgs₂)
        = zipStoryImages i j imgs₁ ++ zipStoryImages i (j + imgs₁.length + 1) imgs₂ := by
  intro imgs₁
  induction imgs₁ with
  | nil =>
    intro j imgs₂
    simp only [List.nil_append, zipStoryImages, List.length_nil]
    simp [h]
  | cons a rest ih =>
    intro j imgs₂
    simp only [List.cons_append, zipStoryImages, List.append_eq]
    rw [ih (j + 1) imgs₂, List.append_assoc]
    congr 3
    simp [List.length_cons]
    omega

theorem docxChunk_skip (fmt : String) (e : Bool) (q ans st : String)
    (imgs₁ imgs₂ : List Image) (bad : Image) (h : b64decode bad.base64 = none) :
    docxChunk fmt true e ⟨q, ans, st, imgs₁ ++ bad :: imgs₂⟩
      = docxChunk fmt true e ⟨q, ans, st, imgs₁ ++ imgs₂⟩ := by
  have himg : (if true && !(imgs₁ ++ bad :: imgs₂).isEmpty
        then docxImageBlocks (imgs₁ ++ bad :: imgs₂) else [])
      = (if true && !(imgs₁ ++ imgs₂).isEmpty then docxImageBlocks (imgs₁ ++ imgs₂) else []) := by
    rw [docxImageBlocks_skip imgs₁ imgs₂ bad h]
    by_cases he : (imgs₁ ++ imgs₂).isEmpty = true
    · have h12 := List.append_eq_nil.mp (List.isEmpty_iff.mp he)
      rw [h12.1, h12.2]
      simp [docxImageBlocks]
    · have hne : (imgs₁ ++ bad :: imgs₂).isEmpty = false := by
        cases imgs₁ <;> rfl
      have he' : (imgs₁ ++ imgs₂).isEmpty = false := by simpa using he
      rw [hne, he']
      simp only [Bool.not_false, Bool.and_true, if_true]
      unfold docxImageBlocks
      rw [List.flatMap_append]
  simp only [docxChunk]
  rw [himg]

theorem docxChunks_skip (fmt : String) (q ans st : String) (imgs₁ imgs₂ : List Image)
    (bad : Image) (h : b64decode bad.base64 = none) (ss₂ : List Story) :
    ∀ (ss₁ : List Story) (cur : Option String),
      docxChunks fmt true cur (ss₁ ++ ⟨q, ans, st, imgs₁ ++ bad :: imgs₂⟩ :: ss₂)
        = docxChunks fmt true cur (ss₁ ++ ⟨q, ans, st, imgs₁ ++ imgs₂⟩ :: ss₂) := by
  intro ss₁
  induction ss₁ with
  | nil =>
    intro cur
    simp only [List.nil_append, docxChunks]
    rw [docxChunk_skip fmt _ q ans st imgs₁ imgs₂ bad h]
  | cons s0 rest ih =>
    intro cur
    simp only [List.cons_append, docxChunks, List.append_eq]
    rw [ih (some s0.session_title)]

theorem firstSeenTitles_skip (q ans st : String) (x y : List Image)
    (ss₁ ss₂ : List Story) :
    firstSeenTitles (ss₁ ++ ⟨q, ans, st, x⟩ :: ss₂)
      = firstSeenTitles (ss₁ ++ ⟨q, ans, st, y⟩ :: ss₂) := by
  unfold firstSeenTitles
  rw [List.foldl_append, List.foldl_append, List.foldl_cons, List.foldl_cons]

end BiographyPublisher

/-- C8: an image whose base64 fails to decode is skipped while everything
around it survives — the DOCX image loop drops exactly that image's
blocks, the ZIP image loop drops exactly that image's entry while later
images keep their original enumeration indices, and the whole DOCX
document for a story list containing the bad image equals the document for
the same list with the bad image removed. -/
theorem claim_c8_bad_image_skipped (imgs₁ imgs₂ : List Image) (bad : Image)
    (i j : Nat) (h : b64decode bad.base64 = none) :
    docxImageBlocks (imgs₁ ++ bad :: imgs₂)
      = docxImageBlocks imgs₁ ++ docxImageBlocks imgs₂
    ∧ zipStoryImages i j (imgs₁ ++ bad :: imgs₂)
        = zipStoryImages i j imgs₁ ++ zipStoryImages i (j + imgs₁.length + 1) imgs₂
    ∧ ∀ (year : Nat) (t a q ans st : String) (ss₁ ss₂ : List Story) (fmt : String)
        (toc : Bool) (cov : Option (List Nat)),
        generate_docx year t a (ss₁ ++ ⟨q, ans, st, imgs₁ ++ bad :: imgs₂⟩ :: ss₂)
            fmt toc true cov
          = generate_docx year t a (ss₁ ++ ⟨q, ans, st, imgs₁ ++ imgs₂⟩ :: ss₂)
              fmt toc true cov := by
  refine ⟨docxImageBlocks_skip imgs₁ imgs₂ bad h, zipStoryImages_skip i bad h imgs₁ j imgs₂, ?_⟩
  intro year t a q ans st ss₁ ss₂ fmt toc cov
  unfold generate_docx
  rw [docxChunks_skip fmt q ans st imgs₁ imgs₂ bad h ss₂ ss₁ none]
  rw [show docxTocBlocks toc (ss₁ ++ ⟨q, ans, st, imgs₁ ++ bad :: imgs₂⟩ :: ss₂)
      = docxTocBlocks toc (ss₁ ++ ⟨q, ans, st, imgs₁ ++ imgs₂⟩ :: ss₂) by
    unfold docxTocBlocks
    rw [firstSeenTitles_skip q ans st (imgs₁ ++ bad :: imgs₂) (imgs₁ ++ imgs₂) ss₁ ss₂]]

/-- C8 witness: the theorem applied to a concrete story whose middle image
has undecodable base64 text between two valid images. -/
theorem claim_c8_bad_image_skipped_witness :
    docxImageBlocks [⟨"QUJD", "c1"⟩, ⟨"A", "x"⟩, ⟨"RA==", "c2"⟩]
      = docxImageBlocks [⟨"QUJD", "c1"⟩] ++ docxImageBlocks [⟨"RA==", "c2"⟩] :=
  (claim_c8_bad_image_skipped [⟨"QUJD", "c1"⟩] [⟨"RA==", "c2"⟩] ⟨"A", "x"⟩ 0 0 (by decide)).1

namespace BiographyPublisher

/-- The archive contents as the amended C9 claim states them: the HTML
entry named from the title with spaces replaced by underscores, whose
content is the HTML generator's output on the same arguments, then — when
include_images is set — one decoded-bytes entry per enumerated story image
whose base64 field is nonempty and decodes; nothing else. -/
def claimedZipEntries (year : Nat) (title author : String) (ss : List Story)
    (fmt : String) (toc incImg : Bool) (cov : Option (List Nat)) :
    List (String × ZipData) :=
  (htmlFilename title, ZipData.ofStr (generate_html year title author ss fmt toc incImg cov))
    :: (if incImg then
          ss.enum.flatMap (fun p =>
            (p.2.images.enum).filterMap (fun qq =>
              if qq.2.base64 ≠ "" then
                match b64decode qq.2.base64 with
                | some d => some (imgEntryName p.1 qq.1, ZipData.ofBytes d)
                | none => none
              else none))
        else [])

theorem zipStoryImages_enumFrom (i : Nat) :
    ∀ (imgs : List Image) (j : Nat),
      zipStoryImages i j imgs
        = (imgs.enumFrom j).filterMap (fun qq =>
            if qq.2.base64 ≠ "" then
              match b64decode qq.2.base64 with
              | some d => some (imgEntryName i qq.1, ZipData.ofBytes d)
              | none => none
            else none) := by
  intro imgs
  induction imgs with
  | nil => intro j; rfl
  | cons a rest ih =>
    intro j
    simp only [zipStoryImages, List.enumFrom, List.filterMap_cons]
    rw [ih (j + 1)]
    by_cases hb : a.base64 ≠ ""
    · rw [if_pos hb]
      cases hd : b64decode a.base64 with
      | some d => simp [hb, hd]
      | none => simp [hb, hd]
    · rw [if_neg hb]
      simp [hb]

theorem zipImagesLoop_enumFrom :
    ∀ (ss : List Story) (i : Nat),
      zipImagesLoop i ss
        = (ss.enumFrom i).flatMap (fun p =>
            (p.2.images.enum).filterMap (fun qq =>
              if qq.2.base64 ≠ "" then
                match b64decode qq.2.base64 with
                | some d => some (imgEntryName p.1 qq.1, ZipData.ofBytes d)
                | none => none
              else none)) := by
  intro ss
  induction ss with
  | nil => intro i; rfl
  | cons s rest ih =>
    intro i
    simp only [zipImagesLoop, List.enumFrom, List.flatMap_cons]
    rw [ih (i + 1), zipStoryImages_enumFrom i s.images 0]
    rfl

end BiographyPublisher

/-- C9 counterexample: an image whose base64 text is the empty string
decodes successfully (to zero bytes), yet the archive for a story carrying
it contains only the HTML entry and no images/image_0_0.jpg entry, because
the packager tests the field for truthiness before decoding. -/
theorem claim_c9_counterexample :
    b64decode "" = some []
    ∧ ((generate_zip 2026 "T" "Z" [⟨"q", "ans", "S", [⟨"", "c"⟩]⟩]
        "interview" false true none).map Prod.fst) = ["T.html"] := by
  exact ⟨rfl, rfl⟩

/-- C9 (amended): the archive produced by generate_zip contains exactly
the HTML entry — named from the title with spaces replaced by underscores
plus the html extension, with content equal to the HTML generator's output
for the same arguments — and, when include_images is set, one entry
images/image_i_j.jpg holding the decoded bytes of each enumerated story
image whose base64 is nonempty and decodes; it adds nothing else. -/
theorem claim_c9_zip_contents (year : Nat) (t a : String) (ss : List Story)
    (fmt : String) (toc incImg : Bool) (cov : Option (List Nat)) :
    generate_zip year t a ss fmt toc incImg cov
      = claimedZipEntries year t a ss fmt toc incImg cov := by
  unfold generate_zip claimedZipEntries
  congr 1
  split
  · exact zipImagesLoop_enumFrom ss 0
  · rfl

/-- C10: with the empty story list and any metadata, the publisher
generators return normally and produce only the front matter — cover,
title, author, copyright line, and, when include_toc is set, an empty
table of contents — with no session headings, question or answer
paragraphs, and no images; the archive holds only the HTML entry. -/
theorem claim_c10_empty_stories (year : Nat) (t a : String) (fmt : String)
    (toc incImg : Bool) (cov : Option (List Nat)) :
    generate_docx year t a [] fmt toc incImg cov
      = docxCoverBlocks cov
        ++ [docxTitlePara t, docxAuthorPara a, DocxBlock.pageBreak,
            docxCopyrightPara year a, DocxBlock.pageBreak]
        ++ (if toc then [DocxBlock.paragraph
              [⟨"Table of Contents", true, false, some 18⟩] false none,
            DocxBlock.pageBreak] else [])
    ∧ htmlPieces year t a [] fmt toc incImg cov
        = HtmlPiece.head year t a cov
          :: (if toc then [HtmlPiece.tocOpen, HtmlPiece.tocClose] else [])
          ++ [HtmlPiece.tail]
    ∧ generate_zip year t a [] fmt toc incImg cov
        = [(htmlFilename t, ZipData.ofStr (generate_html year t a [] fmt toc incImg cov))]
    ∧ (generate_docx year t a [] fmt toc incImg cov).filterMap headingTitle = []
    ∧ (generate_docx year t a [] fmt toc incImg cov).filter isQABlock = []
    ∧ (htmlPieces year t a [] fmt toc incImg cov).filterMap h2Title = []
    ∧ (htmlPieces year t a [] fmt toc incImg cov).filter isQAPiece = [] := by
  refine ⟨?_, ?_, ?_, ?_, ?_, ?_, ?_⟩
  · cases cov <;> cases toc <;> rfl
  · cases toc <;> rfl
  · cases incImg <;> rfl
  · cases cov <;> cases toc <;> rfl
  · cases cov <;> cases toc <;> rfl
  · cases toc <;> rfl
  · cases toc <;> rfl
